import Mathlib

/-!
Verification of the capsule visibility and store logic of the time-capsule
service (`src/backend/database.py`, `src/backend/routes.py`).

Modelling conventions:
* Instants are integers (seconds).  `datetime.now(timezone.utc)` is passed in
  explicitly as `now : Int` (an absolute UTC instant), making the handlers pure.
* A Python `datetime` value is a wall-clock reading together with an optional
  UTC offset (`tzinfo`); `tz = none` models a naive datetime.  Comparison of
  aware datetimes compares absolute instants (wall-clock minus offset).
* Floats carried by the fragment fields are modelled as rationals; the code
  only compares and clamps them, which rationals mirror exactly.
* A JSON object produced by `Capsule.to_dict` is an association list in the
  order the Python dict literal builds it; `isoformat()` rendering of a
  datetime is represented by the datetime value itself (`JValue.vTime`).
-/

/-- A Python `datetime`: wall-clock seconds plus optional UTC offset
(`tzinfo`); `tz = none` is a naive datetime. -/
structure DT where
  naive : Int
  tz : Option Int
deriving DecidableEq

/-- `unlock_utc.replace(tzinfo=timezone.utc)` when naive, identity otherwise
(database.py lines 94-96 and 109-111). -/
def normalizeDT (d : DT) : DT :=
  if d.tz = none then { d with tz := some 0 } else d

/-- The absolute UTC instant of a datetime; for a naive datetime this treats
the wall-clock value as UTC, which is exactly what normalization does. -/
def instant (d : DT) : Int :=
  d.naive - d.tz.getD 0

/-- The `capsules` row of `database.py` (`Capsule` model).  `creator_email`
and `tags` are nullable columns; the rest are NOT NULL. -/
structure Capsule where
  id : String
  title : String
  content : String
  content_type : String
  creator_name : String
  creator_email : Option String
  tags : Option String
  created_at : DT
  unlock_date : DT
  is_public : Bool
  fragment_x : ℚ
  fragment_y : ℚ
  fragment_rotation : ℚ
  fragment_scale : ℚ
deriving DecidableEq

/-- `Capsule.is_unlocked` (database.py lines 86-97): normalize the stored
unlock date to UTC and test `now >= unlock_utc`. -/
def Capsule.is_unlocked (c : Capsule) (now : Int) : Bool :=
  decide (instant (normalizeDT c.unlock_date) ≤ now)

/-- `Capsule.time_until_unlock` (database.py lines 99-112): `None` when
unlocked, otherwise the timedelta `unlock_utc - now` (in seconds). -/
def Capsule.time_until_unlock (c : Capsule) (now : Int) : Option Int :=
  if c.is_unlocked now then none
  else some (instant (normalizeDT c.unlock_date) - now)

/-- JSON values appearing in capsule projections. -/
inductive JValue where
  | vStr (s : String)
  | vBool (b : Bool)
  | vNum (q : ℚ)
  | vNull
  | vList (l : List String)
  | vTime (d : DT)
  | vTR (days hours minutes : Int)
deriving DecidableEq

/-- Helper for `splitComma`: accumulate the current piece (reversed). -/
def splitCommaAux : List Char → List Char → List String
  | [], acc => [String.mk acc.reverse]
  | ch :: rest, acc =>
      if ch = ',' then String.mk acc.reverse :: splitCommaAux rest []
      else splitCommaAux rest (ch :: acc)

/-- Python `s.split(',')`: split on every comma, keeping empty pieces. -/
def splitComma (s : String) : List String :=
  splitCommaAux s.toList []

/-- `self.tags.split(',') if self.tags else []` (database.py line 129):
a null or empty tags column gives `[]`; otherwise split on commas with no
trimming. -/
def tagsSplit (tags : Option String) : List String :=
  match tags with
  | none => []
  | some s => if s = "" then [] else splitComma s

/-- `Capsule.to_dict` (database.py lines 114-151).  The base dict is built in
source order; `content` is appended iff `include_content and is_unlocked()`,
else `time_remaining` is appended when locked and the timedelta is truthy.
`created_at`/`unlock_date` are NOT NULL columns, so their `else None`
branches are dead and the isoformat rendering is emitted directly. -/
def Capsule.to_dict (c : Capsule) (now : Int) (include_content : Bool) :
    List (String × JValue) :=
  let base : List (String × JValue) :=
    [("id", .vStr c.id),
     ("title", .vStr c.title),
     ("content_type", .vStr c.content_type),
     ("creator_name", .vStr c.creator_name),
     ("tags", .vList (tagsSplit c.tags)),
     ("created_at", .vTime c.created_at),
     ("unlock_date", .vTime c.unlock_date),
     ("is_public", .vBool c.is_public),
     ("is_unlocked", .vBool (c.is_unlocked now)),
     ("fragment_x", .vNum c.fragment_x),
     ("fragment_y", .vNum c.fragment_y),
     ("fragment_rotation", .vNum c.fragment_rotation),
     ("fragment_scale", .vNum c.fragment_scale)]
  let extra : List (String × JValue) :=
    if include_content && c.is_unlocked now then
      [("content", .vStr c.content)]
    else if !(c.is_unlocked now) then
      match c.time_until_unlock now with
      | some t =>
          if t ≠ 0 then
            [("time_remaining",
              .vTR (t.fdiv 86400) ((t.fmod 86400).fdiv 3600)
                (((t.fmod 86400).fmod 3600).fdiv 60))]
          else []
      | none => []
    else []
  base ++ extra

/-- The keys of a projected dict. -/
def dictKeys (d : List (String × JValue)) : List String :=
  d.map Prod.fst

/-! ## Route handlers (`routes.py`), made pure over an explicit store -/

/-- The capsule store: the rows of the `capsules` table. -/
abbrev Store := List Capsule

/-- `Capsule.query.get(capsule_id)`: primary-key lookup. -/
def findCapsule (store : Store) (cid : String) : Option Capsule :=
  store.find? (fun c => c.id == cid)

/-- An HTTP response: an error `{error: message}` with its status, or a
success with its status and JSON body. -/
inductive ApiResp where
  | err (status : Nat) (error : String)
  | ok (status : Nat) (body : List (String × JValue))
deriving DecidableEq

/-- The HTTP status of a response. -/
def ApiResp.status : ApiResp → Nat
  | .err s _ => s
  | .ok s _ => s

/-- `get_capsule` (routes.py lines 149-168): 404 when absent, 403 when
private, else the projection with content included only if unlocked. -/
def get_capsule (store : Store) (cid : String) (now : Int) : ApiResp × Store :=
  match findCapsule store cid with
  | none => (.err 404 "Capsule not found", store)
  | some c =>
      if !c.is_public then (.err 403 "This capsule is private", store)
      else (.ok 200 (c.to_dict now (c.is_unlocked now)), store)

/-- The JSON `tags` field of a create request: absent, an array of strings,
or a single string. -/
inductive TagsField where
  | absent
  | ofList (l : List String)
  | ofStr (s : String)
deriving DecidableEq

/-- `tags = data.get('tags', []); if isinstance(tags, list): tags = ','.join(tags)`
(routes.py lines 212-214). -/
def tagsToStored : TagsField → String
  | .absent => ""
  | .ofList l => String.intercalate "," l
  | .ofStr s => s

/-- The JSON body of a create request (`none` = key absent). -/
structure CreateInput where
  title : Option String
  content : Option String
  creator_name : Option String
  creator_email : Option String
  unlock_date : Option String
  content_type : Option String
  tags : TagsField
  is_public : Option Bool
deriving DecidableEq

/-- `field not in data or not data[field]` for a string field: absent or
empty (the falsy strings). -/
def strFieldMissing : Option String → Bool
  | none => true
  | some s => s.isEmpty

/-- `create_capsule` (routes.py lines 171-234).  The datetime parser
(`parse_datetime`, pure string/calendar processing) is passed in as `parse`;
per its source it always attaches UTC to a naive result, so its output's
absolute value is `instant`.  The generated id and the four random fragment
defaults (`random.uniform` in `Capsule.__init__`) are injected as arguments.
The success body is the created capsule's projection with content excluded
(`include_content=False`); the enclosing `message` envelope is elided. -/
def create_capsule (parse : String → Option DT) (store : Store)
    (data : Option CreateInput) (now : Int) (newId : String)
    (fx fy frot fsc : ℚ) : ApiResp × Store :=
  match data with
  | none => (.err 400 "No data provided", store)
  | some d =>
    if strFieldMissing d.title then
      (.err 400 "Missing required field: title", store)
    else if strFieldMissing d.content then
      (.err 400 "Missing required field: content", store)
    else if strFieldMissing d.creator_name then
      (.err 400 "Missing required field: creator_name", store)
    else if strFieldMissing d.unlock_date then
      (.err 400 "Missing required field: unlock_date", store)
    else
      match parse (d.unlock_date.getD "") with
      | none => (.err 400 "Invalid unlock_date format. Use ISO 8601 format.", store)
      | some ud =>
        if instant ud ≤ now then
          (.err 400 "Unlock date must be in the future", store)
        else
          let cap : Capsule :=
            { id := newId,
              title := d.title.getD "",
              content := d.content.getD "",
              content_type := d.content_type.getD "text",
              creator_name := d.creator_name.getD "",
              creator_email := d.creator_email,
              tags := some (tagsToStored d.tags),
              created_at := ⟨now, some 0⟩,
              unlock_date := ud,
              is_public := d.is_public.getD true,
              fragment_x := fx,
              fragment_y := fy,
              fragment_rotation := frot,
              fragment_scale := fsc }
          (.ok 201 (cap.to_dict now false), store ++ [cap])

/-- Remove the row found by primary key (`db.session.delete`). -/
def removeFirst : Store → String → Store
  | [], _ => []
  | c :: rest, cid => if c.id == cid then rest else removeFirst rest cid |> (c :: ·)

/-- `delete_capsule` (routes.py lines 237-256). -/
def delete_capsule (store : Store) (cid : String) : ApiResp × Store :=
  match findCapsule store cid with
  | none => (.err 404 "Capsule not found", store)
  | some _ =>
      (.ok 200 [("message", .vStr "Capsule deleted successfully")],
       removeFirst store cid)

/-- The JSON body of a position-update request (`none` = key absent). -/
structure PosInput where
  fragment_x : Option ℚ
  fragment_y : Option ℚ
  fragment_rotation : Option ℚ
  fragment_scale : Option ℚ
deriving DecidableEq

/-- `max(lo, min(hi, v))`, the clamp used in routes.py lines 284-290. -/
def clampQ (lo hi v : ℚ) : ℚ := max lo (min hi v)

/-- The field mutations of `update_capsule_position`: each fragment field
present in the request is clamped and assigned, the rest keep their value. -/
def applyPos (c : Capsule) (data : PosInput) : Capsule :=
  { c with
    fragment_x :=
      match data.fragment_x with
      | some v => clampQ 0 100 v
      | none => c.fragment_x,
    fragment_y :=
      match data.fragment_y with
      | some v => clampQ 0 100 v
      | none => c.fragment_y,
    fragment_rotation :=
      match data.fragment_rotation with
      | some v => clampQ (-30) 30 v
      | none => c.fragment_rotation,
    fragment_scale :=
      match data.fragment_scale with
      | some v => clampQ 0.5 1.5 v
      | none => c.fragment_scale }

/-- Replace the row found by primary key with its mutated version. -/
def replaceFirst : Store → String → Capsule → Store
  | [], _, _ => []
  | c :: rest, cid, c' =>
      if c.id == cid then c' :: rest else replaceFirst rest cid c' |> (c :: ·)

/-- `update_capsule_position` (routes.py lines 259-294): 404 when absent,
else clamp-and-assign each present fragment field, commit, and return the
updated projection with content included only if unlocked. -/
def update_capsule_position (store : Store) (cid : String) (data : PosInput)
    (now : Int) : ApiResp × Store :=
  match findCapsule store cid with
  | none => (.err 404 "Capsule not found", store)
  | some c =>
      let c' := applyPos c data
      (.ok 200 (c'.to_dict now (c'.is_unlocked now)), replaceFirst store cid c')

/-- `isPre needle hay`: `needle` is a leading piece of `hay`. -/
def isPre : List Char → List Char → Bool
  | [], _ => true
  | _ :: _, [] => false
  | a :: as, b :: bs => a == b && isPre as bs

/-- Substring test on character lists. -/
def strSubAux (needle : List Char) : List Char → Bool
  | [] => needle.isEmpty
  | b :: bs => isPre needle (b :: bs) || strSubAux needle bs

/-- `needle` occurs as a contiguous substring of `hay`: the SQL
`LIKE '%needle%'` test generated by `Capsule.tags.contains(tag)`. -/
def strSub (needle hay : String) : Bool :=
  strSubAux needle.toList hay.toList

/-- ASCII lowercasing, as SQL `ilike` folds case. -/
def lowerStr (s : String) : String :=
  String.mk (s.toList.map Char.toLower)

/-- Case-insensitive substring test: `column.ilike('%needle%')`. -/
def containsCI (needle hay : String) : Bool :=
  strSub (lowerStr needle) (lowerStr hay)

/-- The filter predicate of `get_capsules` (routes.py lines 68-83): public,
then each of the three optional filters when its query parameter is truthy
(absent or empty parameters add no filter; a NULL tags column never matches
the tag filter). -/
def matchesFilter (tag search ctype : Option String) (c : Capsule) : Bool :=
  c.is_public &&
  (match tag with
   | none => true
   | some t =>
       if t = "" then true
       else match c.tags with
            | none => false
            | some s => strSub t s) &&
  (match search with
   | none => true
   | some s =>
       if s = "" then true
       else containsCI s c.title || containsCI s c.content) &&
  (match ctype with
   | none => true
   | some ct => if ct = "" then true else c.content_type == ct)

/-- `order_by(Capsule.created_at.desc())`: newer first. -/
def byCreatedDesc (a b : Capsule) : Prop :=
  instant (normalizeDT b.created_at) ≤ instant (normalizeDT a.created_at)

instance : DecidableRel byCreatedDesc := fun _ _ =>
  inferInstanceAs (Decidable (_ ≤ _))

/-- The body of the list response. -/
structure ListResp where
  capsules : List (List (String × JValue))
  total : Nat
  limit : Nat
  offset : Nat
deriving DecidableEq

/-- `get_capsules` (routes.py lines 47-98): filter to public plus the truthy
query filters, order by creation time descending, apply offset then limit
(limit defaults to 50 and is capped at 100, offset defaults to 0), project
each page item with content included only if it is individually unlocked, and
report `total` as the count of the filtered query without pagination. -/
def get_capsules (store : Store) (tag search ctype : Option String)
    (limitQ offsetQ : Option Nat) (now : Int) : ListResp × Store :=
  let lim := min (limitQ.getD 50) 100
  let off := offsetQ.getD 0
  let matching := store.filter (matchesFilter tag search ctype)
  let page := ((matching.insertionSort byCreatedDesc).drop off).take lim
  ({ capsules := page.map (fun c => c.to_dict now (c.is_unlocked now)),
     total := matching.length,
     limit := lim,
     offset := off }, store)

/-- `order_by(Capsule.unlock_date.asc())`: earliest unlock first. -/
def byUnlockAsc (a b : Capsule) : Prop :=
  instant (normalizeDT a.unlock_date) ≤ instant (normalizeDT b.unlock_date)

instance : DecidableRel byUnlockAsc := fun _ _ =>
  inferInstanceAs (Decidable (_ ≤ _))

/-- `get_unlocked_capsules` (routes.py lines 101-122): public capsules whose
unlock date has passed, newest first, at most `min(limit, 100)` (default 30),
content always included. -/
def get_unlocked_capsules (store : Store) (limitQ : Option Nat) (now : Int) :
    List (List (String × JValue)) × Store :=
  let lim := min (limitQ.getD 30) 100
  let caps := (store.filter (fun c =>
      c.is_public && decide (instant (normalizeDT c.unlock_date) ≤ now)))
    |>.insertionSort byCreatedDesc |>.take lim
  (caps.map (fun c => c.to_dict now true), store)

/-- `get_locked_capsules` (routes.py lines 125-146): public capsules whose
unlock date is still in the future, soonest unlock first, at most
`min(limit, 50)` (default 10), content always excluded. -/
def get_locked_capsules (store : Store) (limitQ : Option Nat) (now : Int) :
    List (List (String × JValue)) × Store :=
  let lim := min (limitQ.getD 10) 50
  let caps := (store.filter (fun c =>
      c.is_public && decide (now < instant (normalizeDT c.unlock_date))))
    |>.insertionSort byUnlockAsc |>.take lim
  (caps.map (fun c => c.to_dict now false), store)

/-- `ch.isspace()` over the ASCII whitespace Python strips. -/
def pyIsSpace (ch : Char) : Bool :=
  ch = ' ' || ch = '\t' || ch = '\n' || ch = '\r' || ch = '\x0B' || ch = '\x0C'

/-- Python `str.strip()`: drop leading and trailing whitespace. -/
def pyStrip (s : String) : String :=
  String.mk (((s.toList.dropWhile pyIsSpace).reverse.dropWhile pyIsSpace).reverse)

/-- The stripped, non-empty tag tokens contributed by one capsule
(routes.py lines 311-316). -/
def capTagTokens (c : Capsule) : List String :=
  ((splitComma (c.tags.getD "")).map pyStrip).filter (fun t => t ≠ "")

/-- `get_tags` (routes.py lines 297-318): over public capsules with a
non-null, non-empty tags column, split on commas, strip, drop empties,
deduplicate (the Python `set`), and sort ascending. -/
def get_tags (store : Store) : List String × Store :=
  let caps := store.filter (fun c =>
    c.is_public && c.tags.isSome && c.tags ≠ some "")
  (((caps.map capTagTokens).flatten.dedup).insertionSort (· ≤ ·), store)

/-- `get_stats` (routes.py lines 321-345): counts of public, public-unlocked
and public-locked capsules. -/
def get_stats (store : Store) (now : Int) : (Nat × Nat × Nat) × Store :=
  (((store.filter (fun c => c.is_public)).length,
    (store.filter (fun c =>
      c.is_public && decide (instant (normalizeDT c.unlock_date) ≤ now))).length,
    (store.filter (fun c =>
      c.is_public && decide (now < instant (normalizeDT c.unlock_date)))).length),
   store)

/-! ## Concrete capsules used as witnesses -/

/-- A public capsule, unlock date naive at instant 1, tags with an untrimmed
space after the comma. -/
def cEx : Capsule :=
  { id := "c1", title := "t", content := "secret", content_type := "text",
    creator_name := "n", creator_email := some "who@example.com",
    tags := some "a, b", created_at := ⟨0, some 0⟩, unlock_date := ⟨1, none⟩,
    is_public := true, fragment_x := 50, fragment_y := 50,
    fragment_rotation := 0, fragment_scale := 1 }

/-- A private capsule. -/
def cPriv : Capsule := { cEx with id := "c2", is_public := false }

/-- A store holding one public and one private capsule. -/
def exStore : Store := [cEx, cPriv]

/-! ## Projection lemmas -/

lemma to_dict_content_mem (c : Capsule) (now : Int) (inc : Bool) :
    "content" ∈ dictKeys (c.to_dict now inc) ↔
      (c.is_unlocked now = true ∧ inc = true) := by
  by_cases h : instant (normalizeDT c.unlock_date) ≤ now
  · have hu : c.is_unlocked now = true := by simpa [Capsule.is_unlocked] using h
    cases inc <;> simp [Capsule.to_dict, dictKeys, hu]
  · have hu : c.is_unlocked now = false := by simpa [Capsule.is_unlocked] using h
    have hne : instant (normalizeDT c.unlock_date) - now ≠ 0 := by omega
    cases inc <;>
      simp [Capsule.to_dict, dictKeys, Capsule.time_until_unlock, hu, hne]

lemma to_dict_time_remaining_mem (c : Capsule) (now : Int) (inc : Bool) :
    "time_remaining" ∈ dictKeys (c.to_dict now inc) ↔
      c.is_unlocked now = false := by
  by_cases h : instant (normalizeDT c.unlock_date) ≤ now
  · have hu : c.is_unlocked now = true := by simpa [Capsule.is_unlocked] using h
    cases inc <;> simp [Capsule.to_dict, dictKeys, hu]
  · have hu : c.is_unlocked now = false := by simpa [Capsule.is_unlocked] using h
    have hne : instant (normalizeDT c.unlock_date) - now ≠ 0 := by omega
    cases inc <;>
      simp [Capsule.to_dict, dictKeys, Capsule.time_until_unlock, hu, hne]

/-- C1: for every capsule, instant and content-requested flag, the projection
includes `content` iff the capsule is unlocked and content was requested,
includes `time_remaining` iff the capsule is locked (regardless of the flag),
and never includes both. -/
theorem c1_projection_content_vs_time_remaining (c : Capsule) (now : Int)
    (inc : Bool) :
    ("content" ∈ dictKeys (c.to_dict now inc) ↔
      (c.is_unlocked now = true ∧ inc = true)) ∧
    ("time_remaining" ∈ dictKeys (c.to_dict now inc) ↔
      c.is_unlocked now = false) ∧
    ¬("content" ∈ dictKeys (c.to_dict now inc) ∧
      "time_remaining" ∈ dictKeys (c.to_dict now inc)) := by
  refine ⟨to_dict_content_mem c now inc, to_dict_time_remaining_mem c now inc, ?_⟩
  rintro ⟨h1, h2⟩
  rw [to_dict_content_mem] at h1
  rw [to_dict_time_remaining_mem] at h2
  simp [h1.1] at h2

/-- C2: `is_unlocked` holds iff `now` is at or past the UTC-normalized unlock
date, and is monotone in `now` (so a capsule flips from locked to unlocked at
most once as time advances). -/
theorem c2_is_unlocked_iff_and_monotone (c : Capsule) (n1 n2 : Int)
    (h : n1 ≤ n2) :
    (c.is_unlocked n1 = true ↔ instant (normalizeDT c.unlock_date) ≤ n1) ∧
    (c.is_unlocked n1 = true → c.is_unlocked n2 = true) := by
  constructor
  · simp [Capsule.is_unlocked]
  · intro h1
    simp only [Capsule.is_unlocked, decide_eq_true_eq] at h1 ⊢
    omega

theorem c2_witness :
    (cEx.is_unlocked 1 = true ↔ instant (normalizeDT cEx.unlock_date) ≤ 1) ∧
    (cEx.is_unlocked 1 = true → cEx.is_unlocked 2 = true) :=
  c2_is_unlocked_iff_and_monotone cEx 1 2 (by decide)

/-- C9 (counterexample): `to_dict` splits the stored tags string on commas
without trimming: for stored tags `"a, b"` the projected tags are
`["a", " b"]`, not the trimmed `["a", "b"]` the claim predicts. -/
theorem c9_counterexample :
    (cEx.to_dict 0 false).lookup "tags" = some (JValue.vList ["a", " b"]) ∧
    ((splitComma "a, b").map pyStrip = ["a", "b"]) ∧
    JValue.vList ["a", " b"] ≠ JValue.vList ["a", "b"] := by
  refine ⟨?_, ?_, ?_⟩ <;> decide

/-- C9 (amended): the tags field of every projection is the stored
comma-joined tags string split on commas, with no whitespace trimming, and
the empty list when the tags column is null or empty. -/
theorem c9_amended_tags_split_untrimmed (c : Capsule) (now : Int) (inc : Bool) :
    (c.to_dict now inc).lookup "tags" =
      some (JValue.vList
        (match c.tags with
         | none => []
         | some s => if s = "" then [] else splitComma s)) := by
  simp [Capsule.to_dict, List.lookup, tagsSplit]

/-- C10: the projection never contains a `creator_email` key, and two
capsules differing only in `creator_email` produce identical projections, so
the creator's email is never observable through a projection. -/
theorem c10_creator_email_never_projected (c : Capsule) (now : Int)
    (inc : Bool) (e : Option String) :
    "creator_email" ∉ dictKeys (c.to_dict now inc) ∧
    ({ c with creator_email := e } : Capsule).to_dict now inc =
      c.to_dict now inc := by
  constructor
  · by_cases h : instant (normalizeDT c.unlock_date) ≤ now
    · have hu : c.is_unlocked now = true := by
        simpa [Capsule.is_unlocked] using h
      cases inc <;> simp [Capsule.to_dict, dictKeys, hu]
    · have hu : c.is_unlocked now = false := by
        simpa [Capsule.is_unlocked] using h
      have hne : instant (normalizeDT c.unlock_date) - now ≠ 0 := by omega
      cases inc <;>
        simp [Capsule.to_dict, dictKeys, Capsule.time_until_unlock, hu, hne]
  · rfl

/-- C3: whenever the request's `unlock_date` parses to an instant at or
before the current instant, `create_capsule` answers 400 and leaves the
store unchanged (no capsule record is created). -/
theorem c3_create_past_unlock_rejected (parse : String → Option DT)
    (store : Store) (d : CreateInput) (now : Int) (newId : String)
    (fx fy frot fsc : ℚ) (s : String) (ud : DT)
    (hs : d.unlock_date = some s) (hp : parse s = some ud)
    (hle : instant ud ≤ now) :
    (create_capsule parse store (some d) now newId fx fy frot fsc).fst.status
        = 400 ∧
    (create_capsule parse store (some d) now newId fx fy frot fsc).snd
        = store := by
  have hget : d.unlock_date.getD "" = s := by rw [hs]; rfl
  simp only [create_capsule, hget, hp]
  split_ifs <;> exact ⟨rfl, rfl⟩

/-- A parser stub used only to exercise `c3_create_past_unlock_rejected`. -/
def exParse : String → Option DT := fun _ => some ⟨0, some 0⟩

/-- A well-formed create request whose unlock date is in the past. -/
def exCreate : CreateInput :=
  { title := some "t", content := some "c", creator_name := some "n",
    creator_email := none, unlock_date := some "1970-01-01T00:00:00Z",
    content_type := none, tags := .absent, is_public := none }

theorem c3_witness :
    (create_capsule exParse [] (some exCreate) 5 "id9" 50 50 0 1).fst.status
        = 400 ∧
    (create_capsule exParse [] (some exCreate) 5 "id9" 50 50 0 1).snd = [] :=
  c3_create_past_unlock_rejected exParse [] exCreate 5 "id9" 50 50 0 1
    "1970-01-01T00:00:00Z" ⟨0, some 0⟩ rfl rfl (by decide)

/-- C4: `get_capsule` answers 404 when no capsule has the id, 403 when the
capsule is private (whatever its unlock state), and otherwise the projection
with `content` present iff the capsule is unlocked at the time of the call. -/
theorem c4_get_capsule_cases (store : Store) (cid : String) (now : Int) :
    (findCapsule store cid = none →
      get_capsule store cid now = (.err 404 "Capsule not found", store)) ∧
    (∀ c, findCapsule store cid = some c → c.is_public = false →
      get_capsule store cid now = (.err 403 "This capsule is private", store)) ∧
    (∀ c, findCapsule store cid = some c → c.is_public = true →
      get_capsule store cid now =
        (.ok 200 (c.to_dict now (c.is_unlocked now)), store) ∧
      ("content" ∈ dictKeys (c.to_dict now (c.is_unlocked now)) ↔
        c.is_unlocked now = true)) := by
  refine ⟨?_, ?_, ?_⟩
  · intro h; simp [get_capsule, h]
  · intro c hc hpub; simp [get_capsule, hc, hpub]
  · intro c hc hpub
    refine ⟨by simp [get_capsule, hc, hpub], ?_⟩
    rw [to_dict_content_mem]
    cases hu : c.is_unlocked now <;> simp [hu]

theorem c4_witness :
    get_capsule exStore "nope" 0 = (.err 404 "Capsule not found", exStore) ∧
    get_capsule exStore "c2" 0 = (.err 403 "This capsule is private", exStore) ∧
    get_capsule exStore "c1" 5 =
      (.ok 200 (cEx.to_dict 5 (cEx.is_unlocked 5)), exStore) :=
  ⟨(c4_get_capsule_cases exStore "nope" 0).1 (by decide),
   (c4_get_capsule_cases exStore "c2" 0).2.1 cPriv (by decide) (by decide),
   ((c4_get_capsule_cases exStore "c1" 5).2.2 cEx (by decide) (by decide)).1⟩

lemma clampQ_mem (lo hi v : ℚ) (h : lo ≤ hi) :
    lo ≤ clampQ lo hi v ∧ clampQ lo hi v ≤ hi :=
  ⟨le_max_left lo _, max_le h (min_le_left hi v)⟩

/-- C5: every fragment field present in a position-update request is clamped
to its range — x and y to [0, 100], rotation to [-30, 30], scale to
[0.5, 1.5] — before being stored and returned. -/
theorem c5_update_position_clamps (store : Store) (cid : String)
    (data : PosInput) (now : Int) (c : Capsule)
    (h : findCapsule store cid = some c) :
    (update_capsule_position store cid data now).fst =
      .ok 200 ((applyPos c data).to_dict now
        ((applyPos c data).is_unlocked now)) ∧
    (update_capsule_position store cid data now).snd =
      replaceFirst store cid (applyPos c data) ∧
    (∀ v, data.fragment_x = some v →
      (applyPos c data).fragment_x = clampQ 0 100 v ∧
      0 ≤ (applyPos c data).fragment_x ∧ (applyPos c data).fragment_x ≤ 100) ∧
    (∀ v, data.fragment_y = some v →
      (applyPos c data).fragment_y = clampQ 0 100 v ∧
      0 ≤ (applyPos c data).fragment_y ∧ (applyPos c data).fragment_y ≤ 100) ∧
    (∀ v, data.fragment_rotation = some v →
      (applyPos c data).fragment_rotation = clampQ (-30) 30 v ∧
      -30 ≤ (applyPos c data).fragment_rotation ∧
      (applyPos c data).fragment_rotation ≤ 30) ∧
    (∀ v, data.fragment_scale = some v →
      (applyPos c data).fragment_scale = clampQ 0.5 1.5 v ∧
      0.5 ≤ (applyPos c data).fragment_scale ∧
      (applyPos c data).fragment_scale ≤ 1.5) ∧
    (∀ b, ((applyPos c data).to_dict now b).lookup "fragment_x" =
        some (.vNum (applyPos c data).fragment_x) ∧
      ((applyPos c data).to_dict now b).lookup "fragment_y" =
        some (.vNum (applyPos c data).fragment_y) ∧
      ((applyPos c data).to_dict now b).lookup "fragment_rotation" =
        some (.vNum (applyPos c data).fragment_rotation) ∧
      ((applyPos c data).to_dict now b).lookup "fragment_scale" =
        some (.vNum (applyPos c data).fragment_scale)) := by
  refine ⟨by simp [update_capsule_position, h], by simp [update_capsule_position, h],
    ?_, ?_, ?_, ?_, ?_⟩
  · intro v hv
    have hx : (applyPos c data).fragment_x = clampQ 0 100 v := by
      simp [applyPos, hv]
    exact ⟨hx, hx ▸ (clampQ_mem 0 100 v (by norm_num)).1,
      hx ▸ (clampQ_mem 0 100 v (by norm_num)).2⟩
  · intro v hv
    have hy : (applyPos c data).fragment_y = clampQ 0 100 v := by
      simp [applyPos, hv]
    exact ⟨hy, hy ▸ (clampQ_mem 0 100 v (by norm_num)).1,
      hy ▸ (clampQ_mem 0 100 v (by norm_num)).2⟩
  · intro v hv
    have hr : (applyPos c data).fragment_rotation = clampQ (-30) 30 v := by
      simp [applyPos, hv]
    exact ⟨hr, hr ▸ (clampQ_mem (-30) 30 v (by norm_num)).1,
      hr ▸ (clampQ_mem (-30) 30 v (by norm_num)).2⟩
  · intro v hv
    have hsc : (applyPos c data).fragment_scale = clampQ 0.5 1.5 v := by
      simp [applyPos, hv]
    exact ⟨hsc, hsc ▸ (clampQ_mem 0.5 1.5 v (by norm_num)).1,
      hsc ▸ (clampQ_mem 0.5 1.5 v (by norm_num)).2⟩
  · intro b
    by_cases hu : instant (normalizeDT (applyPos c data).unlock_date) ≤ now
    · have h1 : (applyPos c data).is_unlocked now = true := by
        simpa [Capsule.is_unlocked] using hu
      cases b <;> simp [Capsule.to_dict, List.lookup, h1]
    · have h1 : (applyPos c data).is_unlocked now = false := by
        simpa [Capsule.is_unlocked] using hu
      cases b <;> simp [Capsule.to_dict, List.lookup, h1]

/-- The position-update request from the spec's clamping examples:
x = 150, y = -50, rotation = 45, scale = 0.1. -/
def exPos : PosInput := ⟨some 150, some (-50), some 45, some 0.1⟩

theorem c5_witness :
    (applyPos cEx exPos).fragment_x = 100 ∧
    (applyPos cEx exPos).fragment_y = 0 ∧
    (applyPos cEx exPos).fragment_rotation = 30 ∧
    (applyPos cEx exPos).fragment_scale = 0.5 ∧
    (update_capsule_position [cEx] "c1" exPos 0).snd =
      [applyPos cEx exPos] := by
  have h := c5_update_position_clamps [cEx] "c1" exPos 0 cEx (by decide)
  refine ⟨?_, ?_, ?_, ?_, ?_⟩
  · rw [(h.2.2.1 150 rfl).1]; norm_num [clampQ]
  · rw [(h.2.2.2.1 (-50) rfl).1]; norm_num [clampQ]
  · rw [(h.2.2.2.2.1 45 rfl).1]; norm_num [clampQ]
  · rw [(h.2.2.2.2.2.1 0.1 rfl).1]; norm_num [clampQ]
  · rw [h.2.1]; rfl

lemma mem_removeFirst {store : Store} {cid : String} {c2 : Capsule}
    (h : c2 ∈ removeFirst store cid) : c2 ∈ store := by
  induction store with
  | nil => simp [removeFirst] at h
  | cons c rest ih =>
      by_cases hid : c.id == cid
      · simp only [removeFirst, hid, if_pos] at h
        exact List.mem_cons_of_mem c h
      · simp only [removeFirst, hid, if_neg, Bool.false_eq_true,
          not_false_iff] at h
        rcases List.mem_cons.1 h with h1 | h1
        · exact h1 ▸ List.mem_cons_self c rest
        · exact List.mem_cons_of_mem c (ih h1)

lemma mem_create_snd (parse : String → Option DT) (store : Store)
    (data : Option CreateInput) (now : Int) (newId : String)
    (fx fy frot fsc : ℚ) {c2 : Capsule} (h : c2 ∈ store) :
    c2 ∈ (create_capsule parse store data now newId fx fy frot fsc).snd := by
  match data with
  | none => simpa [create_capsule] using h
  | some d =>
      simp only [create_capsule]
      split_ifs
      any_goals exact h
      rcases hud : parse (d.unlock_date.getD "") with _ | ud
      · simp only [hud]; exact h
      · simp only [hud]
        split_ifs
        · exact h
        · exact List.mem_append_left _ h

/-- C6: a position update changes nothing but the four fragment fields of
the addressed capsule (omitted fields keep their value); every read
operation leaves the store untouched; create only appends a new record and
delete only removes one — no other operation mutates a stored capsule. -/
theorem c6_frame_conditions (store : Store) (cid : String) (data : PosInput)
    (now : Int) (c : Capsule) (h : findCapsule store cid = some c) :
    ((update_capsule_position store cid data now).snd =
        replaceFirst store cid (applyPos c data) ∧
      (applyPos c data).id = c.id ∧
      (applyPos c data).title = c.title ∧
      (applyPos c data).content = c.content ∧
      (applyPos c data).content_type = c.content_type ∧
      (applyPos c data).creator_name = c.creator_name ∧
      (applyPos c data).creator_email = c.creator_email ∧
      (applyPos c data).tags = c.tags ∧
      (applyPos c data).created_at = c.created_at ∧
      (applyPos c data).unlock_date = c.unlock_date ∧
      (applyPos c data).is_public = c.is_public) ∧
    ((data.fragment_x = none →
        (applyPos c data).fragment_x = c.fragment_x) ∧
     (data.fragment_y = none →
        (applyPos c data).fragment_y = c.fragment_y) ∧
     (data.fragment_rotation = none →
        (applyPos c data).fragment_rotation = c.fragment_rotation) ∧
     (data.fragment_scale = none →
        (applyPos c data).fragment_scale = c.fragment_scale)) ∧
    (∀ cid2 now2, (get_capsule store cid2 now2).snd = store) ∧
    (∀ tag search ctype limitQ offsetQ now2,
      (get_capsules store tag search ctype limitQ offsetQ now2).snd = store) ∧
    (∀ limitQ now2, (get_unlocked_capsules store limitQ now2).snd = store) ∧
    (∀ limitQ now2, (get_locked_capsules store limitQ now2).snd = store) ∧
    (get_tags store).snd = store ∧
    (∀ now2, (get_stats store now2).snd = store) ∧
    (∀ parse dta now2 newId fx fy frot fsc c2, c2 ∈ store →
      c2 ∈ (create_capsule parse store dta now2 newId fx fy frot fsc).snd) ∧
    (∀ cid2 c2, c2 ∈ (delete_capsule store cid2).snd → c2 ∈ store) := by
  refine ⟨⟨by simp [update_capsule_position, h], rfl, rfl, rfl, rfl, rfl, rfl,
      rfl, rfl, rfl, rfl⟩,
    ⟨?_, ?_, ?_, ?_⟩, ?_, fun _ _ _ _ _ _ => rfl, fun _ _ => rfl,
    fun _ _ => rfl, rfl, fun _ => rfl, ?_, ?_⟩
  · intro hx; simp [applyPos, hx]
  · intro hy; simp [applyPos, hy]
  · intro hr; simp [applyPos, hr]
  · intro hs; simp [applyPos, hs]
  · intro cid2 now2
    unfold get_capsule
    cases findCapsule store cid2 with
    | none => rfl
    | some c2 => by_cases hp : c2.is_public <;> simp [hp]
  · intro parse dta now2 newId fx fy frot fsc c2 hmem
    exact mem_create_snd parse store dta now2 newId fx fy frot fsc hmem
  · intro cid2 c2 hmem
    unfold delete_capsule at hmem
    cases hfind : findCapsule store cid2 with
    | none => rw [hfind] at hmem; exact hmem
    | some c3 => rw [hfind] at hmem; exact mem_removeFirst hmem

theorem c6_witness :
    (update_capsule_position exStore "c1" exPos 0).snd =
      replaceFirst exStore "c1" (applyPos cEx exPos) ∧
    (applyPos cEx exPos).title = cEx.title ∧
    (applyPos cEx exPos).unlock_date = cEx.unlock_date :=
  ⟨(c6_frame_conditions exStore "c1" exPos 0 cEx (by decide)).1.1,
   (c6_frame_conditions exStore "c1" exPos 0 cEx (by decide)).1.2.2.1,
   (c6_frame_conditions exStore "c1" exPos 0 cEx (by decide)).1.2.2.2.2.2.2.2.2.2.1⟩

/-- A second public capsule, distinct id. -/
def cEx2 : Capsule := { cEx with id := "c3" }

/-- A store of exactly two public capsules. -/
def exPub : Store := [cEx, cEx2]

/-- C7: `get_capsules` considers only public capsules; the items are the page
of the filtered, creation-time-ordered records after `offset`, at most
`limit` of them with `limit` defaulting to 50 and capped at 100; `total`
counts every record matching the same filter, ignoring pagination — with two
matching public capsules and limit 1, offset 0, one item is returned and
`total` is 2. -/
theorem c7_list_pagination (store : Store) (tag search ctype : Option String)
    (limitQ offsetQ limitQ2 offsetQ2 : Option Nat) (now : Int) :
    (∀ c ∈ store.filter (matchesFilter tag search ctype), c.is_public = true) ∧
    (get_capsules store tag search ctype limitQ offsetQ now).fst.capsules =
      ((((store.filter (matchesFilter tag search ctype)).insertionSort
          byCreatedDesc).drop (offsetQ.getD 0)).take
        (min (limitQ.getD 50) 100)).map
        (fun c => c.to_dict now (c.is_unlocked now)) ∧
    (get_capsules store tag search ctype limitQ offsetQ now).fst.capsules.length
      ≤ (get_capsules store tag search ctype limitQ offsetQ now).fst.limit ∧
    (get_capsules store tag search ctype limitQ offsetQ now).fst.limit =
      min (limitQ.getD 50) 100 ∧
    (get_capsules store tag search ctype limitQ offsetQ now).fst.limit ≤ 100 ∧
    (get_capsules store tag search ctype limitQ offsetQ now).fst.offset =
      offsetQ.getD 0 ∧
    (get_capsules store tag search ctype limitQ offsetQ now).fst.total =
      (store.filter (matchesFilter tag search ctype)).length ∧
    (get_capsules store tag search ctype limitQ offsetQ now).fst.total =
      (get_capsules store tag search ctype limitQ2 offsetQ2 now).fst.total ∧
    (get_capsules exPub none none none (some 1) (some 0) now).fst.capsules.length
      = 1 ∧
    (get_capsules exPub none none none (some 1) (some 0) now).fst.total = 2 ∧
    (get_capsules exPub none none none (some 1) (some 0) now).fst.limit = 1 ∧
    (get_capsules exPub none none none (some 1) (some 0) now).fst.offset = 0 := by
  refine ⟨?_, rfl, ?_, rfl, ?_, rfl, rfl, rfl, ?_, rfl, rfl, rfl⟩
  · intro c hc
    rw [List.mem_filter] at hc
    have h2 := hc.2
    simp only [matchesFilter, Bool.and_eq_true] at h2
    exact h2.1.1.1
  · simp only [get_capsules, List.length_map, List.length_take]
    exact min_le_left _ _
  · simp only [get_capsules]
    exact min_le_right _ _
  · rfl

lemma capTagTokens_of_none {c : Capsule} (h : c.tags = none) :
    capTagTokens c = [] := by
  rw [capTagTokens, h]; decide

lemma capTagTokens_of_empty {c : Capsule} (h : c.tags = some "") :
    capTagTokens c = [] := by
  rw [capTagTokens, h]; decide

/-- Capsules carrying the spec's example tags `"b,a,a"` and `"c"`. -/
def cTagA : Capsule := { cEx with id := "t1", tags := some "b,a,a" }
def cTagB : Capsule := { cEx with id := "t2", tags := some "c" }

/-- A store holding the two example tagged capsules. -/
def exTagStore : Store := [cTagA, cTagB]

/-- C8: `get_tags` returns a strictly ascending (hence sorted and
deduplicated) list whose members are exactly the stripped, non-empty
comma-separated tag tokens of the public capsules — for stored tags
`"b,a,a"` and `"c"` it returns `["a", "b", "c"]`. -/
theorem c8_list_tags (store : Store) (x : String) :
    List.Sorted (· < ·) (get_tags store).fst ∧
    (x ∈ (get_tags store).fst ↔
      ∃ c ∈ store, c.is_public = true ∧ x ∈ capTagTokens c) ∧
    (get_tags exTagStore).fst = ["a", "b", "c"] := by
  refine ⟨?_, ?_, ?_⟩
  · have hs : List.Sorted (· ≤ ·) (get_tags store).fst :=
      List.sorted_insertionSort _ _
    have hn : (get_tags store).fst.Nodup :=
      (List.perm_insertionSort _ _).nodup_iff.mpr (List.nodup_dedup _)
    exact hs.lt_of_le hn
  · rw [show (get_tags store).fst = ((store.filter (fun c =>
        c.is_public && c.tags.isSome && c.tags ≠ some "")).map
        capTagTokens).flatten.dedup.insertionSort (· ≤ ·) from rfl,
      (List.perm_insertionSort _ _).mem_iff, List.mem_dedup, List.mem_flatten]
    constructor
    · rintro ⟨l', hl', hx⟩
      rw [List.mem_map] at hl'
      obtain ⟨c, hc, rfl⟩ := hl'
      rw [List.mem_filter] at hc
      have h2 := hc.2
      simp only [Bool.and_eq_true] at h2
      exact ⟨c, hc.1, h2.1.1, hx⟩
    · rintro ⟨c, hc, hpub, hx⟩
      refine ⟨capTagTokens c, ?_, hx⟩
      rw [List.mem_map]
      refine ⟨c, ?_, rfl⟩
      rw [List.mem_filter]
      refine ⟨hc, ?_⟩
      rcases htags : c.tags with _ | s
      · rw [capTagTokens_of_none htags] at hx
        exact absurd hx (List.not_mem_nil x)
      · by_cases hs : s = ""
        · rw [capTagTokens_of_empty (hs ▸ htags)] at hx
          exact absurd hx (List.not_mem_nil x)
        · simp [hpub, htags, hs]
  · have h1 : ((exTagStore.filter (fun c =>
        c.is_public && c.tags.isSome && c.tags ≠ some "")).map
        capTagTokens).flatten.dedup = ["b", "a", "c"] := by decide
    have h2 : (get_tags exTagStore).fst =
        List.insertionSort (· ≤ ·) ["b", "a", "c"] :=
      congrArg (List.insertionSort (· ≤ ·)) h1
    rw [h2]
    simp [List.insertionSort, List.orderedInsert]
    decide
